import Mathlib

/-!
Verification of the syndicate repository (src/syndicate/utils.py and the
dev.to silo client described by src/tests/test_dev.py) against its
natural-language specification.

The embedding models Python values appearing in post frontmatter, Python
dict semantics (insertion order, in-place overwrite), the functions of
src/syndicate/utils.py, and the external GitHub API as an abstract state.
Python exceptions (AssertionError, UnboundLocalError, KeyError) are
modelled with an explicit error type.
-/

namespace Syndicate

/-- A scalar Python value as it appears in frontmatter metadata. -/
inductive Val where
  | str (s : String)
  | int (n : Int)
  | bool (b : Bool)
  | null
deriving DecidableEq, Repr

/-- Python truthiness of a `Val`: empty string, 0, False and None are falsy. -/
def Val.truthy : Val → Bool
  | .str s => !s.isEmpty
  | .int n => n != 0
  | .bool b => b
  | .null => false

/-- Python truthiness of an optional lookup result: a missing key is falsy. -/
def pyTruthy : Option Val → Bool
  | none => false
  | some v => v.truthy

/-- Python exceptions raised by the code under verification. -/
inductive PyErr where
  | assertionError (msg : String)
  | unboundLocalError (name : String)
  | keyError (key : String)
deriving DecidableEq, Repr

/-- Python `dict.get`: the value at the first (unique) matching key, if any. -/
def dictGet {α : Type} : List (String × α) → String → Option α
  | [], _ => none
  | (k2, v) :: rest, k => if k2 = k then some v else dictGet rest k

/-- Python `d[k] = v`: overwrite in place when the key exists, append otherwise. -/
def dictSet {α : Type} : List (String × α) → String → α → List (String × α)
  | [], k, v => [(k, v)]
  | (k2, v2) :: rest, k, v =>
    if k2 = k then (k2, v) :: rest else (k2, v2) :: dictSet rest k v

/-- Python `dict(old, **new)`: insert the entries of `new` into `old` in order. -/
def dictMerge {α : Type} (old new : List (String × α)) : List (String × α) :=
  new.foldl (fun acc kv => dictSet acc kv.1 kv.2) old

/-- A parsed frontmatter document: ordered metadata mapping plus body text,
modelling `frontmatter.Post`. -/
structure Post where
  metadata : List (String × Val)
  content : String
deriving DecidableEq, Repr

/-- Models `frontmatter.Post.to_dict`: the metadata with the body inserted
under the key `content`. -/
def Post.to_dict (p : Post) : List (String × Val) :=
  dictSet p.metadata "content" (.str p.content)

/-- Models `frontmatter.Post(**kwargs)`: the `content` keyword becomes the
body, the remaining keywords become the metadata in order. -/
def postOfKwargs (d : List (String × Val)) : Post :=
  { content :=
      match dictGet d "content" with
      | some (.str s) => s
      | _ => ""
    metadata := d.filter (fun kv => kv.1 != "content") }

/-- A `github3` `Contents` object, reduced to its decoded text. -/
structure Contents where
  decoded : String
deriving DecidableEq, Repr

/-- The argument of `fronted`: either an already parsed `frontmatter.Post` or
a raw `Contents` object. `none` stands for a missing or otherwise falsy
argument (`None`, empty). -/
inductive PostInput where
  | post (p : Post)
  | contents (c : Contents)
deriving DecidableEq, Repr

/-- Embeds `fronted` from src/syndicate/utils.py. `loads` models the external
`frontmatter.loads` on inputs it can parse. A falsy argument fails the
`assert post`; an argument that is already a `frontmatter.Post` is returned
unchanged; otherwise the decoded contents are parsed. -/
def fronted (loads : String → Post) : Option PostInput → Except PyErr Post
  | none => .error (.assertionError "missing post")
  | some (.post p) => .ok p
  | some (.contents c) => .ok (loads c.decoded)

/-- Python `str.lower`, character by character on the text. -/
def pyLower (s : String) : String :=
  ⟨s.data.map Char.toLower⟩

/-- Python `str.startswith`: the second text is a character prefix of the
first. -/
def pyStartswith (s pre : String) : Bool :=
  pre.data.isPrefixOf s.data

/-- Embeds `syndicate_key_for` from src/syndicate/utils.py. -/
def syndicate_key_for (silo : String) : String :=
  pyLower silo ++ "_syndicate_id"

/-- Embeds `syndicate_id_for` from src/syndicate/utils.py: after asserting
both arguments truthy, looks the derived key up in the frontmatter of the
(already fronted) post. -/
def syndicate_id_for (loads : String → Post) (post : Option PostInput) (silo : String) :
    Except PyErr (Option Val) :=
  match post with
  | none => .error (.assertionError "missing post")
  | some pin =>
    if silo.isEmpty then .error (.assertionError "missing silo")
    else
      match fronted loads (some pin) with
      | .error e => .error e
      | .ok p => .ok (dictGet p.metadata (syndicate_key_for silo))

/-- Embeds the inner loop of `mark_syndicated_posts` building
`new_syndicate_ids` for one post: silos whose derived key already has a
truthy value in the frontmatter are skipped, the others contribute
`syndicate_key_for silo -> sid` via dict assignment into the accumulator.
An empty silo name fails the `assert silo` inside `syndicate_id_for`. -/
def new_syndicate_ids (p : Post) :
    List (String × Val) → List (String × Val) → Except PyErr (List (String × Val))
  | [], acc => .ok acc
  | (silo, sid) :: rest, acc =>
    if silo.isEmpty then .error (.assertionError "missing silo")
    else if pyTruthy (dictGet p.metadata (syndicate_key_for silo)) then
      new_syndicate_ids p rest acc
    else
      new_syndicate_ids p rest (dictSet acc (syndicate_key_for silo) sid)

/-- Embeds the update of one post in `mark_syndicated_posts`:
`frontmatter.Post(**dict(fronted_post.to_dict(), **new_syndicate_ids))`. -/
def mark_updated_post (p : Post) (newIds : List (String × Val)) : Post :=
  postOfKwargs (dictMerge p.to_dict newIds)

/-- Embeds the outer loop of `mark_syndicated_posts` building
`updated_fronted_posts_by_path`: for each path with syndicate ids, look the
fronted post up (a missing path raises `KeyError`), compute the new ids, and
include the merged post only when there is at least one new id. -/
def mark_batch (posts : List (String × Post)) :
    List (String × List (String × Val)) → Except PyErr (List (String × Post))
  | [] => .ok []
  | (path, idsBySilo) :: rest =>
    match dictGet posts path with
    | none => .error (.keyError path)
    | some p =>
      match new_syndicate_ids p idsBySilo [] with
      | .error e => .error e
      | .ok newIds =>
        match mark_batch posts rest with
        | .error e => .error e
        | .ok tail =>
          if newIds.isEmpty then .ok tail
          else .ok ((path, mark_updated_post p newIds) :: tail)

/-- The environment variables read by src/syndicate/utils.py. -/
structure Env where
  github_token : Option String
  github_repository : Option String
  github_ref : Option String
  github_sha : Option String
  syndicate_sha : Option String
  syndicate_post_dir : Option String
deriving DecidableEq, Repr

/-- A changed file as listed by the commit comparison of the trigger. -/
structure ChangedFile where
  filename : String
  status : String
deriving DecidableEq, Repr

/-- One outbound call to the GitHub API, in the order the code makes them. -/
inductive ApiCall where
  | getCommit (sha : String)
  | getFileContents (path : String) (ref : String)
  | createBlob (content : String) (encoding : String)
  | createTree (entries : List (String × String)) (base : String)
  | createCommit (message : String) (tree : String) (parents : List String)
  | updateRef (ref : String) (sha : String)
deriving DecidableEq, Repr

def ApiCall.isCreateCommit : ApiCall → Bool
  | .createCommit _ _ _ => true
  | _ => false

def ApiCall.isUpdateRef : ApiCall → Bool
  | .updateRef _ _ => true
  | _ => false

/-- The GitHub host as an abstract deterministic responder: what it lists for
a commit, what contents it serves at a ref, which object ids it assigns, and
whether it accepts a reference update. -/
structure GitHub where
  commitFiles : String → List ChangedFile
  contentsAt : String → String → Contents
  blobShaFor : String → String
  treeShaFor : List (String × String) → String → String
  commitShaFor : String → String → List String → String
  refUpdateOk : String → String → Bool
  refUpdateBody : String → String → String

/-- The state threaded through the stateful functions: the environment, the
abstract GitHub host, the network calls made so far, and the workflow log. -/
structure World where
  env : Env
  gh : GitHub
  calls : List ApiCall
  log : List String

/-- Embeds `action_log`: appends a line to the workflow log. -/
def action_log (msg : String) (w : World) : World :=
  { w with log := w.log ++ [msg] }

/-- Embeds `action_error`: appends an error line to the workflow log. -/
def action_error (msg : String) (w : World) : World :=
  { w with log := w.log ++ ["::error::" ++ msg] }

/-- Embeds `action_setenv` for the key SYNDICATE_SHA: the Commit Cursor of
the run is advanced, and the set-env line is written to the log. -/
def action_setenv_syndicate_sha (v : String) (w : World) : World :=
  { w with
    env := { w.env with syndicate_sha := some v }
    log := w.log ++ ["::set-env name=SYNDICATE_SHA::" ++ v] }

/-- Embeds the assertions of `repo`: GITHUB_TOKEN and GITHUB_REPOSITORY must
be present before any authenticated API access. -/
def repo_check (e : Env) : Except PyErr Unit :=
  if e.github_token.isNone then .error (.assertionError "missing GITHUB_TOKEN")
  else if e.github_repository.isNone then .error (.assertionError "missing GITHUB_REPOSITORY")
  else .ok ()

/-- Embeds `parent_sha`: asserts GITHUB_SHA and returns SYNDICATE_SHA when
set, the triggering commit GITHUB_SHA otherwise. -/
def parent_sha (e : Env) : Except PyErr String :=
  match e.github_sha with
  | none => .error (.assertionError "missing GITHUB_SHA")
  | some gsha => .ok (e.syndicate_sha.getD gsha)

/-- Embeds `get_trigger_payload`: asserts GITHUB_SHA, authenticates, and
lists the files of the commit GITHUB_SHA, explicitly not the Commit Cursor. -/
def get_trigger_payload (w : World) : World × Except PyErr (List ChangedFile) :=
  match w.env.github_sha with
  | none => (w, .error (.assertionError "missing GITHUB_SHA"))
  | some gsha =>
    match repo_check w.env with
    | .error e => (w, .error e)
    | .ok _ =>
      ({ w with calls := w.calls ++ [.getCommit gsha] }, .ok (w.gh.commitFiles gsha))

/-- Embeds `file_contents`: fetches the contents of `filename` at the ref
returned by `parent_sha`, the Commit Cursor. -/
def file_contents (filename : String) (w : World) : World × Except PyErr Contents :=
  match repo_check w.env with
  | .error e => (w, .error e)
  | .ok _ =>
    match parent_sha w.env with
    | .error e => (w, .error e)
    | .ok ref =>
      ({ w with calls := w.calls ++ [.getFileContents filename ref] },
       .ok (w.gh.contentsAt filename ref))

/-- Fetches the contents of each listed filename in order, as the final list
comprehension of `get_posts` does. -/
def fetch_contents_list : World → List String → World × Except PyErr (List Contents)
  | w, [] => (w, .ok [])
  | w, f :: rest =>
    match file_contents f w with
    | (w1, .error e) => (w1, .error e)
    | (w1, .ok c) =>
      match fetch_contents_list w1 rest with
      | (w2, .error e) => (w2, .error e)
      | (w2, .ok cs) => (w2, .ok (c :: cs))

/-- The default value of the `post_dir` parameter of `get_posts`: the
SYNDICATE_POST_DIR variable when set, the literal `posts` otherwise. -/
def default_post_dir (e : Env) : String :=
  e.syndicate_post_dir.getD "posts"

/-- Embeds `get_posts`: lists the trigger payload, asserts it non-empty,
keeps the files under `post_dir`, and fetches the contents of those whose
status is not `deleted`. -/
def get_posts (post_dir : String) (w : World) : World × Except PyErr (List Contents) :=
  match get_trigger_payload w with
  | (w1, .error e) => (w1, .error e)
  | (w1, .ok files) =>
    if files.isEmpty then (w1, .error (.assertionError "target commit was empty"))
    else
      let posts := files.filter (fun f => pyStartswith f.filename post_dir)
      fetch_contents_list w1
        ((posts.filter (fun f => f.status != "deleted")).map (fun f => f.filename))

/-- Embeds `repo().create_blob`: records the network call and returns the
sha the host assigns to the content. -/
def create_blob (content : String) (encoding : String) (w : World) : World × String :=
  ({ w with calls := w.calls ++ [.createBlob content encoding] }, w.gh.blobShaFor content)

/-- Embeds the dict comprehension of `commit_updated_posts` creating one new
blob per updated post, in order. `dumps` models `frontmatter.dumps`. -/
def create_blobs (dumps : Post → String) :
    World → List (String × Post) → World × List (String × String)
  | w, [] => (w, [])
  | w, (path, p) :: rest =>
    match create_blob (dumps p) "utf-8" w with
    | (w1, sha) =>
      match create_blobs dumps w1 rest with
      | (w2, tail) => (w2, (path, sha) :: tail)

/-- Embeds `commit_updated_posts` from src/syndicate/utils.py, faithfully to
its executable behavior. An empty batch only logs and returns None. A
non-empty batch passes the environment assertions, creates the blobs, and
then evaluates the statement binding the name parent_sha to a call of the
function parent_sha; since the assignment makes parent_sha local to the
function body, the call reads the local name before it is bound and raises
UnboundLocalError, so the tree creation, commit creation and reference
update below it are never reached. -/
def commit_updated_posts (dumps : Post → String) (batch : List (String × Post))
    (silos : List String) (w : World) : World × Except PyErr (Option String) :=
  if batch.isEmpty then
    (action_log "All good: already marked." w, .ok none)
  else if w.env.github_token.isNone then (w, .error (.assertionError "missing GITHUB_TOKEN"))
  else if w.env.github_repository.isNone then (w, .error (.assertionError "missing GITHUB_REPOSITORY"))
  else if w.env.github_ref.isNone then (w, .error (.assertionError "missing GITHUB_REF"))
  else
    match create_blobs dumps w batch with
    | (w1, _newBlobsByPath) =>
      (w1, .error (.unboundLocalError "parent_sha"))

/-- Embeds the silo set accumulated by `mark_syndicated_posts` while it
builds the batch: each silo contributing a new id is added once. -/
def set_add (s : List String) (x : String) : List String :=
  if x ∈ s then s else s ++ [x]

/-- The silos whose ids are new for at least one post, collected in loop
order as `silos_included` is. -/
def silos_included (posts : List (String × Post))
    (entries : List (String × List (String × Val))) : List String :=
  entries.foldl
    (fun s entry =>
      match dictGet posts entry.1 with
      | none => s
      | some p =>
        entry.2.foldl
          (fun s2 kv =>
            if pyTruthy (dictGet p.metadata (syndicate_key_for kv.1)) then s2
            else set_add s2 kv.1)
          s)
    []

/-- Embeds `mark_syndicated_posts`: asserts both dicts non-empty, builds the
updated batch, and hands it to `commit_updated_posts` with the silos that
contributed new ids. -/
def mark_syndicated_posts (dumps : Post → String)
    (idsByPath : List (String × List (String × Val)))
    (postsByPath : List (String × Post)) (w : World) :
    World × Except PyErr (Option String) :=
  if idsByPath.isEmpty then (w, .error (.assertionError "missing syndicate IDs"))
  else if postsByPath.isEmpty then (w, .error (.assertionError "missing fronted posts"))
  else
    match mark_batch postsByPath idsByPath with
    | .error e => (w, .error e)
    | .ok batch => commit_updated_posts dumps batch (silos_included postsByPath idsByPath) w

/-- An article of the dev.to silo, reduced to its id. -/
structure DevArticle where
  id : Nat
deriving DecidableEq, Repr

/-- The result of a silo fetch: the whole listing, one found article, or not
found (the Python None). -/
inductive FetchResult where
  | listing (arts : List DevArticle)
  | found (art : DevArticle)
  | notFound
deriving DecidableEq, Repr

/-- Scans successive pages for an article with the given id: an empty page
ends the pagination with not found, a matching article on a page is
returned, otherwise the next page is requested. The list end models an API
that would only return empty pages from then on. -/
def dev_fetch_find (pid : Nat) : List (List DevArticle) → Option DevArticle
  | [] => none
  | page :: rest =>
    if page.isEmpty then none
    else
      match page.find? (fun a => a.id == pid) with
      | some a => some a
      | none => dev_fetch_find pid rest

/-- Concatenates successive pages until the first empty one, for a fetch
without an id. -/
def dev_fetch_all : List (List DevArticle) → List DevArticle
  | [] => []
  | page :: rest => if page.isEmpty then [] else page ++ dev_fetch_all rest

/-- Modelled from the spec: the dev.to silo client module
syndicate/silos/dev.py is not under src, only its tests are, so this
definition follows spec section 4.4 and the tests in src/tests/test_dev.py.
A fetch asserts a configured credential; with no id it returns the paginated
listing; with an id it paginates until a matching article is found, and
returns not found, rather than raising, when a page comes back empty. -/
def dev_fetch (api_key : Option String) (pid : Option Nat)
    (pages : List (List DevArticle)) : Except PyErr FetchResult :=
  if api_key.isNone then .error (.assertionError "missing API key")
  else
    match pid with
    | none => .ok (.listing (dev_fetch_all pages))
    | some i =>
      match dev_fetch_find i pages with
      | some a => .ok (.found a)
      | none => .ok .notFound

/-- A concrete GitHub host for evaluation: it accepts every reference
update, so a run that never succeeds cannot blame the host. -/
def sampleGitHub : GitHub :=
  { commitFiles := fun _ => []
    contentsAt := fun _ _ => ⟨""⟩
    blobShaFor := fun c => "blob-" ++ c
    treeShaFor := fun _ _ => "tree1"
    commitShaFor := fun _ _ _ => "commit1"
    refUpdateOk := fun _ _ => true
    refUpdateBody := fun _ _ => "updated" }

/-- A fully configured environment with no Commit Cursor override. -/
def sampleEnv : Env :=
  { github_token := some "t0"
    github_repository := some "me/blog"
    github_ref := some "refs/heads/main"
    github_sha := some "sha0"
    syndicate_sha := none
    syndicate_post_dir := none }

/-- The initial state of a run against the sample host. -/
def sampleWorld : World :=
  { env := sampleEnv, gh := sampleGitHub, calls := [], log := [] }

/-- A post that has never been syndicated. -/
def samplePost : Post :=
  { metadata := [("title", .str "Hi")], content := "Hello" }

/-- A second unsyndicated post. -/
def samplePost2 : Post :=
  { metadata := [("title", .str "Yo")], content := "World" }

/-- A stand-in for the external `frontmatter.dumps` serializer. -/
def sample_dumps : Post → String := fun p => p.content

/-- The keys of a Python dict modelled as an ordered association list. -/
def dictKeys {α : Type} (m : List (String × α)) : List String :=
  m.map Prod.fst

theorem dictKeys_nil {α : Type} : dictKeys ([] : List (String × α)) = [] := rfl

theorem dictKeys_cons {α : Type} (kv : String × α) (rest : List (String × α)) :
    dictKeys (kv :: rest) = kv.1 :: dictKeys rest := rfl

theorem dictGet_nil {α : Type} (k : String) : dictGet ([] : List (String × α)) k = none := rfl

theorem dictGet_cons {α : Type} (kv : String × α) (rest : List (String × α)) (k : String) :
    dictGet (kv :: rest) k = if kv.1 = k then some kv.2 else dictGet rest k := rfl

theorem dictSet_nil {α : Type} (k : String) (v : α) :
    dictSet ([] : List (String × α)) k v = [(k, v)] := rfl

theorem dictSet_cons {α : Type} (kv : String × α) (rest : List (String × α)) (k : String)
    (v : α) :
    dictSet (kv :: rest) k v
      = if kv.1 = k then (kv.1, v) :: rest else kv :: dictSet rest k v := rfl

theorem dictGet_dictSet_self {α : Type} (m : List (String × α)) (k : String) (v : α) :
    dictGet (dictSet m k v) k = some v := by
  induction m with
  | nil => rw [dictSet_nil, dictGet_cons]; simp
  | cons kv rest ih =>
    rw [dictSet_cons]
    by_cases h : kv.1 = k
    · rw [if_pos h, dictGet_cons, if_pos h]
    · rw [if_neg h, dictGet_cons, if_neg h, ih]

theorem dictGet_dictSet_ne {α : Type} (m : List (String × α)) {k2 k : String} (v : α)
    (h : k2 ≠ k) : dictGet (dictSet m k2 v) k = dictGet m k := by
  induction m with
  | nil => rw [dictSet_nil, dictGet_cons, if_neg h]
  | cons kv rest ih =>
    rw [dictSet_cons]
    by_cases h2 : kv.1 = k2
    · have hne : kv.1 ≠ k := fun he => h (h2 ▸ he)
      rw [if_pos h2, dictGet_cons, dictGet_cons, if_neg hne, if_neg hne]
    · rw [if_neg h2, dictGet_cons, dictGet_cons, ih]

theorem dictGet_eq_none_iff {α : Type} (m : List (String × α)) (k : String) :
    dictGet m k = none ↔ k ∉ dictKeys m := by
  induction m with
  | nil => simp [dictGet_nil, dictKeys_nil]
  | cons kv rest ih =>
    rw [dictGet_cons, dictKeys_cons]
    by_cases h : kv.1 = k
    · simp [h]
    · rw [if_neg h, List.mem_cons, ih]
      constructor
      · intro hn hc
        rcases hc with hc | hc
        · exact h hc.symm
        · exact hn hc
      · intro hn
        exact fun hc => hn (Or.inr hc)

theorem dictGet_dictMerge_none {α : Type} (new : List (String × α)) (old : List (String × α))
    (k : String) (h : dictGet new k = none) :
    dictGet (dictMerge old new) k = dictGet old k := by
  induction new generalizing old with
  | nil => rfl
  | cons kv rest ih =>
    rw [dictGet_cons] at h
    by_cases hne : kv.1 = k
    · rw [if_pos hne] at h
      exact absurd h (by simp)
    · rw [if_neg hne] at h
      have hstep : dictMerge old (kv :: rest) = dictMerge (dictSet old kv.1 kv.2) rest := rfl
      rw [hstep, ih _ h, dictGet_dictSet_ne _ _ hne]

theorem dictKeys_dictSet_mem {α : Type} (m : List (String × α)) (k : String) (v : α)
    (h : k ∈ dictKeys m) : dictKeys (dictSet m k v) = dictKeys m := by
  induction m with
  | nil => exact absurd h (by simp [dictKeys_nil])
  | cons kv rest ih =>
    rw [dictSet_cons]
    by_cases h2 : kv.1 = k
    · rw [if_pos h2, dictKeys_cons, dictKeys_cons]
    · rw [if_neg h2]
      have hk : k ∈ dictKeys rest := by
        rcases List.mem_cons.mp (by rw [dictKeys_cons] at h; exact h) with h3 | h3
        · exact absurd h3.symm h2
        · exact h3
      rw [dictKeys_cons, dictKeys_cons, ih hk]

theorem dictKeys_dictSet_not_mem {α : Type} (m : List (String × α)) (k : String) (v : α)
    (h : k ∉ dictKeys m) : dictKeys (dictSet m k v) = dictKeys m ++ [k] := by
  induction m with
  | nil => rfl
  | cons kv rest ih =>
    rw [dictKeys_cons] at h
    have h2 : kv.1 ≠ k := fun he => h (by rw [he]; exact List.mem_cons_self _ _)
    have hk : k ∉ dictKeys rest := fun hmem => h (List.mem_cons_of_mem _ hmem)
    rw [dictSet_cons, if_neg h2, dictKeys_cons, dictKeys_cons, ih hk, List.cons_append]

theorem dictKeys_dictMerge {α : Type} (new : List (String × α)) (old : List (String × α))
    (hnd : (dictKeys new).Nodup) :
    dictKeys (dictMerge old new)
      = dictKeys old ++ (dictKeys new).filter (fun k => (dictGet old k).isNone) := by
  induction new generalizing old with
  | nil => simp [dictMerge, dictKeys_nil]
  | cons kv rest ih =>
    rw [dictKeys_cons] at hnd
    have hnotin : kv.1 ∉ dictKeys rest := (List.nodup_cons.mp hnd).1
    have hnd2 : (dictKeys rest).Nodup := (List.nodup_cons.mp hnd).2
    have hstep : dictMerge old (kv :: rest) = dictMerge (dictSet old kv.1 kv.2) rest := rfl
    have hcong : ∀ k ∈ dictKeys rest,
        ((dictGet (dictSet old kv.1 kv.2) k).isNone : Bool) = (dictGet old k).isNone := by
      intro k hk
      have hne : kv.1 ≠ k := fun he => hnotin (he ▸ hk)
      rw [dictGet_dictSet_ne _ _ hne]
    by_cases hmem : kv.1 ∈ dictKeys old
    · have hget : (dictGet old kv.1).isNone = false := by
        rcases ho : dictGet old kv.1 with _ | v2
        · exact absurd ((dictGet_eq_none_iff _ _).mp ho) (by simpa using hmem)
        · rfl
      rw [hstep, ih _ hnd2, dictKeys_dictSet_mem _ _ _ hmem, dictKeys_cons,
        List.filter_cons, List.filter_congr hcong]
      rw [hget]
      simp
    · have hget : (dictGet old kv.1).isNone = true := by
        rw [(dictGet_eq_none_iff _ _).mpr hmem]
        rfl
      rw [hstep, ih _ hnd2, dictKeys_dictSet_not_mem _ _ _ hmem, dictKeys_cons,
        List.filter_cons, List.filter_congr hcong]
      rw [hget]
      simp

theorem dictKeys_dictSet_nodup {α : Type} (m : List (String × α)) (k : String) (v : α)
    (h : (dictKeys m).Nodup) : (dictKeys (dictSet m k v)).Nodup := by
  by_cases hmem : k ∈ dictKeys m
  · rw [dictKeys_dictSet_mem _ _ _ hmem]; exact h
  · rw [dictKeys_dictSet_not_mem _ _ _ hmem]
    simpa [List.nodup_append] using ⟨h, fun hk => hmem hk⟩

theorem dictGet_filter_ne {α : Type} (d : List (String × α)) (bad k : String) (h : k ≠ bad) :
    dictGet (d.filter (fun kv => kv.1 != bad)) k = dictGet d k := by
  induction d with
  | nil => rfl
  | cons kv rest ih =>
    rw [List.filter_cons]
    by_cases h2 : kv.1 = bad
    · have hcond : (kv.1 != bad) = false := by simp [h2]
      have hne : kv.1 ≠ k := fun he => h (he ▸ h2)
      rw [hcond, if_neg (by simp), dictGet_cons, if_neg hne, ih]
    · have hcond : (kv.1 != bad) = true := by simp [h2]
      rw [hcond, if_pos rfl, dictGet_cons, dictGet_cons, ih]

theorem dictGet_filter_self {α : Type} (d : List (String × α)) (bad : String) :
    dictGet (d.filter (fun kv => kv.1 != bad)) bad = none := by
  induction d with
  | nil => rfl
  | cons kv rest ih =>
    rw [List.filter_cons]
    by_cases h2 : kv.1 = bad
    · have hcond : (kv.1 != bad) = false := by simp [h2]
      rw [hcond, if_neg (by simp), ih]
    · have hcond : (kv.1 != bad) = true := by simp [h2]
      rw [hcond, if_pos rfl, dictGet_cons, if_neg h2, ih]

theorem dictKeys_filter {α : Type} (d : List (String × α)) (bad : String) :
    dictKeys (d.filter (fun kv => kv.1 != bad))
      = (dictKeys d).filter (fun k => k != bad) := by
  induction d with
  | nil => rfl
  | cons kv rest ih =>
    rw [List.filter_cons, dictKeys_cons, List.filter_cons]
    by_cases h2 : kv.1 = bad
    · have hcond : (kv.1 != bad) = false := by simp [h2]
      rw [hcond, if_neg (by simp), if_neg (by simp), ih]
    · have hcond : (kv.1 != bad) = true := by simp [h2]
      rw [hcond, if_pos rfl, if_pos rfl, dictKeys_cons, ih]

theorem syndicate_key_ne_content (silo : String) : syndicate_key_for silo ≠ "content" := by
  intro h
  have hlen := congrArg String.length h
  rw [syndicate_key_for, String.length_append] at hlen
  have h13 : ("_syndicate_id" : String).length = 13 := rfl
  have h7 : ("content" : String).length = 7 := rfl
  omega

/-- New syndicate ids never touch a key whose current frontmatter value is
truthy: the lookup at such a key is the same as in the accumulator. -/
theorem new_syndicate_ids_truthy_skip (p : Post) (ids : List (String × Val))
    (acc out : List (String × Val)) (k : String)
    (hk : pyTruthy (dictGet p.metadata k) = true)
    (h : new_syndicate_ids p ids acc = .ok out) :
    dictGet out k = dictGet acc k := by
  induction ids generalizing acc with
  | nil =>
    simp [new_syndicate_ids] at h
    rw [h]
  | cons kv rest ih =>
    by_cases hempty : kv.1.isEmpty
    · simp [new_syndicate_ids, hempty] at h
    · by_cases htr : pyTruthy (dictGet p.metadata (syndicate_key_for kv.1)) = true
      · rw [new_syndicate_ids] at h
        simp [hempty, htr] at h
        exact ih _ h
      · have hne : syndicate_key_for kv.1 ≠ k := by
          intro he
          rw [he, hk] at htr
          exact htr rfl
        rw [new_syndicate_ids] at h
        simp [hempty, htr] at h
        rw [ih _ h, dictGet_dictSet_ne _ _ hne]

/-- Every key of the computed new syndicate ids comes from the accumulator
or is the derived key of some silo. -/
theorem new_syndicate_ids_keys_form (p : Post) (ids : List (String × Val))
    (acc out : List (String × Val))
    (h : new_syndicate_ids p ids acc = .ok out) :
    ∀ k ∈ dictKeys out, k ∈ dictKeys acc ∨ ∃ silo, k = syndicate_key_for silo := by
  induction ids generalizing acc with
  | nil =>
    simp [new_syndicate_ids] at h
    intro k hk
    exact Or.inl (h ▸ hk)
  | cons kv rest ih =>
    by_cases hempty : kv.1.isEmpty
    · simp [new_syndicate_ids, hempty] at h
    · by_cases htr : pyTruthy (dictGet p.metadata (syndicate_key_for kv.1)) = true
      · rw [new_syndicate_ids] at h
        simp [hempty, htr] at h
        exact ih _ h
      · rw [new_syndicate_ids] at h
        simp [hempty, htr] at h
        intro k hk
        rcases ih _ h k hk with hin | hform
        · by_cases hsame : k = syndicate_key_for kv.1
          · exact Or.inr ⟨kv.1, hsame⟩
          · left
            by_cases hmem : syndicate_key_for kv.1 ∈ dictKeys acc
            · rwa [dictKeys_dictSet_mem _ _ _ hmem] at hin
            · rw [dictKeys_dictSet_not_mem _ _ _ hmem] at hin
              rcases List.mem_append.mp hin with h1 | h1
              · exact h1
              · exact absurd (by simpa using h1) hsame
        · exact Or.inr hform

/-- The computed new syndicate ids form a dict: their keys are distinct. -/
theorem new_syndicate_ids_keys_nodup (p : Post) (ids : List (String × Val))
    (acc out : List (String × Val)) (hacc : (dictKeys acc).Nodup)
    (h : new_syndicate_ids p ids acc = .ok out) : (dictKeys out).Nodup := by
  induction ids generalizing acc with
  | nil =>
    simp [new_syndicate_ids] at h
    exact h ▸ hacc
  | cons kv rest ih =>
    by_cases hempty : kv.1.isEmpty
    · simp [new_syndicate_ids, hempty] at h
    · by_cases htr : pyTruthy (dictGet p.metadata (syndicate_key_for kv.1)) = true
      · rw [new_syndicate_ids] at h
        simp [hempty, htr] at h
        exact ih _ hacc h
      · rw [new_syndicate_ids] at h
        simp [hempty, htr] at h
        exact ih _ (dictKeys_dictSet_nodup _ _ _ hacc) h

theorem pyTruthy_some (v : Val) : pyTruthy (some v) = v.truthy := rfl

theorem mark_updated_post_metadata (p : Post) (newIds : List (String × Val)) :
    (mark_updated_post p newIds).metadata
      = (dictMerge (dictSet p.metadata "content" (.str p.content)) newIds).filter
          (fun kv => kv.1 != "content") := rfl

/-- A key the new ids do not touch, other than the content key, keeps its
lookup across the merged update of a post. -/
theorem mark_updated_post_get_ne_content (p : Post) (newIds : List (String × Val))
    (k : String) (hk : k ≠ "content") (hnone : dictGet newIds k = none) :
    dictGet (mark_updated_post p newIds).metadata k = dictGet p.metadata k := by
  rw [mark_updated_post_metadata, dictGet_filter_ne _ _ _ hk,
    dictGet_dictMerge_none _ _ _ hnone, dictGet_dictSet_ne _ _ (Ne.symm hk)]

end Syndicate

namespace Syndicate

/-- C1: the Commit Protocol never executes its four steps in sequence on a
non-empty batch. On the batch containing posts/a.md, after creating the blob
(step 1) the statement binding the local name parent_sha raises
UnboundLocalError, so no tree is built, no commit is created, and no
reference update is attempted: the only network call made is the blob
creation, and the run ends in the error, against what the claim states. -/
theorem c1_commit_protocol_crashes_after_blobs :
    (commit_updated_posts sample_dumps [("posts/a.md", samplePost)] ["DEV"] sampleWorld).2
      = .error (.unboundLocalError "parent_sha") ∧
    (commit_updated_posts sample_dumps [("posts/a.md", samplePost)] ["DEV"] sampleWorld).1.calls
      = [.createBlob "Hello" "utf-8"] ∧
    ((commit_updated_posts sample_dumps [("posts/a.md", samplePost)] ["DEV"] sampleWorld).1.calls.all
      (fun c => !c.isCreateCommit && !c.isUpdateRef)) = true := by
  refine ⟨rfl, rfl, rfl⟩

/-- C2: the Commit Protocol is not atomic in the claimed sense. On a
non-empty batch of two posts it writes both blobs to the host and then
raises UnboundLocalError: the repository object store is changed by the two
blob-creation calls, yet no commit referencing them is ever created, so
neither does it produce exactly one new commit nor does it leave the state
completely unchanged. -/
theorem c2_commit_protocol_not_atomic :
    (commit_updated_posts sample_dumps
        [("posts/a.md", samplePost), ("posts/b.md", samplePost2)] ["DEV"] sampleWorld).2
      = .error (.unboundLocalError "parent_sha") ∧
    (commit_updated_posts sample_dumps
        [("posts/a.md", samplePost), ("posts/b.md", samplePost2)] ["DEV"] sampleWorld).1.calls
      = [.createBlob "Hello" "utf-8", .createBlob "World" "utf-8"] ∧
    ((commit_updated_posts sample_dumps
        [("posts/a.md", samplePost), ("posts/b.md", samplePost2)] ["DEV"] sampleWorld).1.calls.all
      (fun c => !c.isCreateCommit)) = true := by
  refine ⟨rfl, rfl, rfl⟩

/-- C3: the branch reference update and the Commit Cursor advance are dead
code. Against a host that would accept any reference update, a run on a
non-empty batch still raises UnboundLocalError before reaching them: no
updateRef call is ever made and SYNDICATE_SHA is still unset afterwards, so
the success behavior the claim describes cannot occur on any input. -/
theorem c3_cursor_never_advanced :
    sampleGitHub.refUpdateOk "refs/heads/main" "commit1" = true ∧
    (commit_updated_posts sample_dumps [("posts/a.md", samplePost)] ["dev"] sampleWorld).2
      = .error (.unboundLocalError "parent_sha") ∧
    (commit_updated_posts sample_dumps [("posts/a.md", samplePost)] ["dev"] sampleWorld).1.env.syndicate_sha
      = none ∧
    ((commit_updated_posts sample_dumps [("posts/a.md", samplePost)] ["dev"] sampleWorld).1.calls.all
      (fun c => !c.isUpdateRef)) = true := by
  refine ⟨rfl, rfl, rfl, rfl⟩

/-- C6 counterexample: on the empty batch the operation is indeed a no-op
with zero network calls that returns None, but the line it logs is the
literal text All good: already marked., and the text already up to date
appears nowhere in the log, against the wording the claim fixes. -/
theorem c6_message_counterexample :
    (commit_updated_posts sample_dumps [] ["DEV"] sampleWorld).2 = .ok none ∧
    (commit_updated_posts sample_dumps [] ["DEV"] sampleWorld).1.calls = [] ∧
    (commit_updated_posts sample_dumps [] ["DEV"] sampleWorld).1.log
      = ["All good: already marked."] ∧
    ¬ ("already up to date" ∈ (commit_updated_posts sample_dumps [] ["DEV"] sampleWorld).1.log) := by
  refine ⟨rfl, rfl, rfl, by decide⟩

/-- C6 amended: when the batch of updated posts is empty, the operation
makes no network call, changes neither the environment nor anything else of
the state, returns None, and reports the message All good: already marked. -/
theorem c6_empty_batch_noop (dumps : Post → String) (silos : List String) (w : World) :
    (commit_updated_posts dumps [] silos w).2 = .ok none ∧
    (commit_updated_posts dumps [] silos w).1.calls = w.calls ∧
    (commit_updated_posts dumps [] silos w).1.env = w.env ∧
    (commit_updated_posts dumps [] silos w).1.log = w.log ++ ["All good: already marked."] := by
  refine ⟨rfl, rfl, rfl, rfl⟩

/-- C4 counterexample: a post whose frontmatter already carries the key
dev_syndicate_id with the falsy value 0 is not skipped: the code computes a
new id for silo DEV because the existing value is falsy, and the merge then
replaces the pre-existing value 0 by 42, changing a pre-existing key. -/
theorem c4_falsy_value_overwritten :
    new_syndicate_ids ⟨[("dev_syndicate_id", .int 0)], "body"⟩ [("DEV", .int 42)] []
      = .ok [("dev_syndicate_id", .int 42)] ∧
    dictGet (⟨[("dev_syndicate_id", .int 0)], "body"⟩ : Post).metadata "dev_syndicate_id"
      = some (.int 0) ∧
    dictGet (mark_updated_post ⟨[("dev_syndicate_id", .int 0)], "body"⟩
        [("dev_syndicate_id", .int 42)]).metadata "dev_syndicate_id"
      = some (.int 42) ∧
    (Val.int 42) ≠ (Val.int 0) := by
  refine ⟨rfl, rfl, rfl, by decide⟩

/-- C4 amended: merging the computed new syndicate-ID keys into a header
never changes or removes a pre-existing key whose value is truthy, leaves
every key the new ids do not touch with its exact original value, and keeps
the original key order with the genuinely new keys appended; a pre-existing
key whose value is falsy may be overwritten in place. -/
theorem c4_merge_law_amended (p : Post) (ids newIds : List (String × Val))
    (hc : "content" ∉ dictKeys p.metadata)
    (h : new_syndicate_ids p ids [] = .ok newIds) :
    (∀ k v, dictGet p.metadata k = some v → v.truthy = true →
      dictGet (mark_updated_post p newIds).metadata k = some v) ∧
    (∀ k, dictGet newIds k = none →
      dictGet (mark_updated_post p newIds).metadata k = dictGet p.metadata k) ∧
    dictKeys (mark_updated_post p newIds).metadata
      = dictKeys p.metadata
        ++ (dictKeys newIds).filter (fun k => (dictGet p.metadata k).isNone) := by
  have huntouched : ∀ k, dictGet newIds k = none →
      dictGet (mark_updated_post p newIds).metadata k = dictGet p.metadata k := by
    intro k hknone
    by_cases hkc : k = "content"
    · subst hkc
      rw [mark_updated_post_metadata, dictGet_filter_self]
      exact ((dictGet_eq_none_iff _ _).mpr hc).symm
    · exact mark_updated_post_get_ne_content p newIds k hkc hknone
  refine ⟨?_, huntouched, ?_⟩
  · intro k v hv htr
    have hknone : dictGet newIds k = none := by
      have hskip := new_syndicate_ids_truthy_skip p ids [] newIds k ?_ h
      · rw [hskip, dictGet_nil]
      · rw [hv, pyTruthy_some, htr]
    rw [huntouched k hknone, hv]
  · have hnd : (dictKeys newIds).Nodup :=
      new_syndicate_ids_keys_nodup p ids [] newIds (by simp [dictKeys_nil]) h
    have hform : ∀ k ∈ dictKeys newIds, k ≠ "content" := by
      intro k hkmem
      rcases new_syndicate_ids_keys_form p ids [] newIds h k hkmem with hin | ⟨silo, hkey⟩
      · rw [dictKeys_nil] at hin
        cases hin
      · exact hkey ▸ syndicate_key_ne_content silo
    have hA : (dictKeys p.metadata).filter (fun k => k != "content") = dictKeys p.metadata := by
      refine List.filter_eq_self.mpr ?_
      intro k hkmem
      have : k ≠ "content" := fun he => hc (he ▸ hkmem)
      simpa using this
    have hB : (["content"] : List String).filter (fun k => k != "content") = [] := by
      simp
    have hcong : ∀ k ∈ dictKeys newIds,
        ((dictGet (dictSet p.metadata "content" (Val.str p.content)) k).isNone : Bool)
          = (dictGet p.metadata k).isNone := by
      intro k hkmem
      rw [dictGet_dictSet_ne _ _ (Ne.symm (hform k hkmem))]
    have hC : ((dictKeys newIds).filter
          (fun k => (dictGet (dictSet p.metadata "content" (Val.str p.content)) k).isNone)).filter
            (fun k => k != "content")
        = (dictKeys newIds).filter (fun k => (dictGet p.metadata k).isNone) := by
      rw [List.filter_congr hcong]
      refine List.filter_eq_self.mpr ?_
      intro k hkmem
      have : k ≠ "content" := hform k (List.mem_of_mem_filter hkmem)
      simpa using this
    rw [mark_updated_post_metadata, dictKeys_filter, dictKeys_dictMerge _ _ hnd,
      dictKeys_dictSet_not_mem _ _ _ hc, List.filter_append, List.filter_append,
      hA, hB, hC, List.append_nil]

/-- C4 amended witness: the amended merge law evaluated on a concrete post
with one pre-existing truthy key and one genuinely new id. -/
theorem c4_merge_law_amended_witness :
    ("content" ∉ dictKeys ((⟨[("title", Val.str "Hi")], "b"⟩ : Post)).metadata) ∧
    (new_syndicate_ids ⟨[("title", Val.str "Hi")], "b"⟩ [("dev", .int 7)] []
        = .ok [("dev_syndicate_id", .int 7)]) ∧
    ((∀ k v, dictGet ((⟨[("title", Val.str "Hi")], "b"⟩ : Post)).metadata k = some v →
        v.truthy = true →
        dictGet (mark_updated_post ⟨[("title", Val.str "Hi")], "b"⟩
          [("dev_syndicate_id", .int 7)]).metadata k = some v) ∧
      (∀ k, dictGet [("dev_syndicate_id", Val.int 7)] k = none →
        dictGet (mark_updated_post ⟨[("title", Val.str "Hi")], "b"⟩
            [("dev_syndicate_id", .int 7)]).metadata k
          = dictGet ((⟨[("title", Val.str "Hi")], "b"⟩ : Post)).metadata k) ∧
      dictKeys (mark_updated_post ⟨[("title", Val.str "Hi")], "b"⟩
          [("dev_syndicate_id", .int 7)]).metadata
        = dictKeys ((⟨[("title", Val.str "Hi")], "b"⟩ : Post)).metadata
          ++ (dictKeys [("dev_syndicate_id", Val.int 7)]).filter
              (fun k => (dictGet ((⟨[("title", Val.str "Hi")], "b"⟩ : Post)).metadata k).isNone)) :=
  ⟨by decide, rfl,
    c4_merge_law_amended ⟨[("title", Val.str "Hi")], "b"⟩ [("dev", .int 7)]
      [("dev_syndicate_id", .int 7)] (by decide) rfl⟩

end Syndicate

namespace Syndicate

theorem mem_dictKeys_of_mem {α : Type} {l : List (String × α)} {k : String} {a : α}
    (h : (k, a) ∈ l) : k ∈ dictKeys l :=
  List.mem_map_of_mem Prod.fst h

theorem dictKeys_nodup_mem_eq {α : Type} {l : List (String × α)} {k : String} {a b : α}
    (hnd : (dictKeys l).Nodup) (ha : (k, a) ∈ l) (hb : (k, b) ∈ l) : a = b := by
  induction l with
  | nil => cases ha
  | cons kv rest ih =>
    rw [dictKeys_cons] at hnd
    have hnotin := (List.nodup_cons.mp hnd).1
    have hnd2 := (List.nodup_cons.mp hnd).2
    rcases List.mem_cons.mp ha with ha1 | ha1
    · rcases List.mem_cons.mp hb with hb1 | hb1
      · exact congrArg Prod.snd (ha1.trans hb1.symm)
      · have hk1 : kv.1 = k := (congrArg Prod.fst ha1).symm
        exact absurd (hk1 ▸ mem_dictKeys_of_mem hb1) hnotin
    · rcases List.mem_cons.mp hb with hb1 | hb1
      · have hk1 : kv.1 = k := (congrArg Prod.fst hb1).symm
        exact absurd (hk1 ▸ mem_dictKeys_of_mem ha1) hnotin
      · exact ih hnd2 ha1 hb1

/-- Every path of the batch built by `mark_batch` comes from an entry whose
post exists and whose computed new syndicate ids are non-empty. -/
theorem mark_batch_mem (posts : List (String × Post))
    (entries : List (String × List (String × Val))) (out : List (String × Post))
    (h : mark_batch posts entries = .ok out) :
    ∀ path ∈ dictKeys out, ∃ ids p newIds, (path, ids) ∈ entries ∧
      dictGet posts path = some p ∧ new_syndicate_ids p ids [] = .ok newIds ∧
      newIds ≠ [] := by
  induction entries generalizing out with
  | nil =>
    simp only [mark_batch] at h
    cases h
    intro path hpath
    cases hpath
  | cons e rest ih =>
    obtain ⟨path0, ids0⟩ := e
    simp only [mark_batch] at h
    split at h
    · exact absurd h (by simp)
    · rename_i p hp
      split at h
      · exact absurd h (by simp)
      · rename_i newIds hn
        split at h
        · exact absurd h (by simp)
        · rename_i tail ht
          split at h
          · cases h
            intro path hpath
            obtain ⟨ids1, p1, newIds1, hmem, hg1, hn1, hne1⟩ := ih _ ht path hpath
            exact ⟨ids1, p1, newIds1, List.mem_cons_of_mem _ hmem, hg1, hn1, hne1⟩
          · rename_i hempty
            cases h
            intro path hpath
            rw [dictKeys_cons] at hpath
            rcases List.mem_cons.mp hpath with hpa | hpa
            · subst hpa
              exact ⟨ids0, p, newIds, List.mem_cons_self _ _, hp, hn,
                fun hnil => hempty (by rw [hnil]; rfl)⟩
            · obtain ⟨ids1, p1, newIds1, hmem, hg1, hn1, hne1⟩ := ih _ ht path hpa
              exact ⟨ids1, p1, newIds1, List.mem_cons_of_mem _ hmem, hg1, hn1, hne1⟩

/-- C5: a (post, silo) pair whose frontmatter already carries a truthy
syndication record for the silo is skipped by the reconciliation merge: no
new key is computed for its derived syndicate key, the merged post keeps
the existing value at that key untouched, and a post whose entry yields no
new id at all never appears in the commit batch built by `mark_batch`. -/
theorem c5_existing_record_skipped (p : Post) (S : String)
    (hS : pyTruthy (dictGet p.metadata (syndicate_key_for S)) = true) :
    (∀ ids newIds, new_syndicate_ids p ids [] = .ok newIds →
      dictGet newIds (syndicate_key_for S) = none) ∧
    (∀ ids newIds, new_syndicate_ids p ids [] = .ok newIds →
      dictGet (mark_updated_post p newIds).metadata (syndicate_key_for S)
        = dictGet p.metadata (syndicate_key_for S)) ∧
    (∀ posts entries out path ids q,
      (dictKeys entries).Nodup → mark_batch posts entries = .ok out →
      (path, ids) ∈ entries → dictGet posts path = some q →
      new_syndicate_ids q ids [] = .ok [] → path ∉ dictKeys out) := by
  have h1 : ∀ ids newIds, new_syndicate_ids p ids [] = .ok newIds →
      dictGet newIds (syndicate_key_for S) = none := by
    intro ids newIds h
    rw [new_syndicate_ids_truthy_skip p ids [] newIds (syndicate_key_for S) hS h,
      dictGet_nil]
  refine ⟨h1, ?_, ?_⟩
  · intro ids newIds h
    exact mark_updated_post_get_ne_content p newIds _ (syndicate_key_ne_content S)
      (h1 ids newIds h)
  · intro posts entries out path ids q hnd hmb hmem hget hzero hin
    obtain ⟨ids1, p1, newIds1, hmem1, hget1, hn1, hne1⟩ :=
      mark_batch_mem posts entries out hmb path hin
    have hide : ids1 = ids := dictKeys_nodup_mem_eq hnd hmem1 hmem
    subst hide
    rw [hget] at hget1
    cases hget1
    rw [hzero] at hn1
    cases hn1
    exact hne1 rfl

/-- C5 witness: the skip property evaluated on a concrete post already
carrying a truthy record for silo DEV. -/
theorem c5_existing_record_skipped_witness :
    pyTruthy (dictGet ((⟨[("dev_syndicate_id", Val.int 5)], "b"⟩ : Post)).metadata
        (syndicate_key_for "DEV")) = true ∧
    ((∀ ids newIds,
        new_syndicate_ids ⟨[("dev_syndicate_id", Val.int 5)], "b"⟩ ids [] = .ok newIds →
        dictGet newIds (syndicate_key_for "DEV") = none) ∧
      (∀ ids newIds,
        new_syndicate_ids ⟨[("dev_syndicate_id", Val.int 5)], "b"⟩ ids [] = .ok newIds →
        dictGet (mark_updated_post ⟨[("dev_syndicate_id", Val.int 5)], "b"⟩ newIds).metadata
            (syndicate_key_for "DEV")
          = dictGet ((⟨[("dev_syndicate_id", Val.int 5)], "b"⟩ : Post)).metadata
              (syndicate_key_for "DEV")) ∧
      (∀ posts entries out path ids q,
        (dictKeys entries).Nodup → mark_batch posts entries = .ok out →
        (path, ids) ∈ entries → dictGet posts path = some q →
        new_syndicate_ids q ids [] = .ok [] → path ∉ dictKeys out)) :=
  ⟨by decide, c5_existing_record_skipped ⟨[("dev_syndicate_id", Val.int 5)], "b"⟩ "DEV"
    (by decide)⟩

end Syndicate

namespace Syndicate

/-- With the trigger commit known and credentials present, the trigger
payload is the file listing of the commit GITHUB_SHA, recorded as one call. -/
theorem get_trigger_payload_ok (w : World) (gsha : String)
    (hsha : w.env.github_sha = some gsha)
    (htok : w.env.github_token.isNone = false)
    (hrepo : w.env.github_repository.isNone = false) :
    get_trigger_payload w
      = ({ w with calls := w.calls ++ [.getCommit gsha] }, .ok (w.gh.commitFiles gsha)) := by
  simp [get_trigger_payload, repo_check, hsha, htok, hrepo]

/-- With the trigger commit known and credentials present, a file read goes
to the Commit Cursor: the SYNDICATE_SHA override when present, the commit
GITHUB_SHA otherwise. -/
theorem file_contents_ok (w : World) (f gsha : String)
    (hsha : w.env.github_sha = some gsha)
    (htok : w.env.github_token.isNone = false)
    (hrepo : w.env.github_repository.isNone = false) :
    file_contents f w
      = ({ w with calls := w.calls ++ [.getFileContents f (w.env.syndicate_sha.getD gsha)] },
         .ok (w.gh.contentsAt f (w.env.syndicate_sha.getD gsha))) := by
  simp [file_contents, repo_check, parent_sha, hsha, htok, hrepo]

/-- C7: the changed-file listing is always read from the triggering commit
GITHUB_SHA, while post contents are fetched as of the Commit Cursor, the
SYNDICATE_SHA override when present and the triggering commit otherwise,
which is exactly the value of parent_sha. -/
theorem c7_trigger_vs_cursor_reads (w : World) (gsha : String)
    (hsha : w.env.github_sha = some gsha)
    (htok : w.env.github_token.isNone = false)
    (hrepo : w.env.github_repository.isNone = false) :
    (get_trigger_payload w).2 = .ok (w.gh.commitFiles gsha) ∧
    (get_trigger_payload w).1.calls = w.calls ++ [.getCommit gsha] ∧
    (∀ f, (file_contents f w).2
        = .ok (w.gh.contentsAt f (w.env.syndicate_sha.getD gsha)) ∧
      (file_contents f w).1.calls
        = w.calls ++ [.getFileContents f (w.env.syndicate_sha.getD gsha)]) ∧
    parent_sha w.env = .ok (w.env.syndicate_sha.getD gsha) := by
  refine ⟨?_, ?_, ?_, ?_⟩
  · rw [get_trigger_payload_ok w gsha hsha htok hrepo]
  · rw [get_trigger_payload_ok w gsha hsha htok hrepo]
  · intro f
    refine ⟨?_, ?_⟩
    · rw [file_contents_ok w f gsha hsha htok hrepo]
    · rw [file_contents_ok w f gsha hsha htok hrepo]
  · simp [parent_sha, hsha]

/-- A world whose run already carries a Commit Cursor override. -/
def sampleWorld2 : World :=
  { env := { sampleEnv with syndicate_sha := some "sha1" }
    gh := sampleGitHub, calls := [], log := [] }

/-- C7 witness: the read-split property evaluated on a concrete world whose
SYNDICATE_SHA override differs from the triggering commit. -/
theorem c7_trigger_vs_cursor_reads_witness :
    sampleWorld2.env.github_sha = some "sha0" ∧
    sampleWorld2.env.github_token.isNone = false ∧
    sampleWorld2.env.github_repository.isNone = false ∧
    ((get_trigger_payload sampleWorld2).2 = .ok (sampleWorld2.gh.commitFiles "sha0") ∧
      (get_trigger_payload sampleWorld2).1.calls
        = sampleWorld2.calls ++ [.getCommit "sha0"] ∧
      (∀ f, (file_contents f sampleWorld2).2
          = .ok (sampleWorld2.gh.contentsAt f (sampleWorld2.env.syndicate_sha.getD "sha0")) ∧
        (file_contents f sampleWorld2).1.calls
          = sampleWorld2.calls
            ++ [.getFileContents f (sampleWorld2.env.syndicate_sha.getD "sha0")]) ∧
      parent_sha sampleWorld2.env = .ok (sampleWorld2.env.syndicate_sha.getD "sha0")) :=
  ⟨rfl, rfl, rfl, c7_trigger_vs_cursor_reads sampleWorld2 "sha0" rfl rfl rfl⟩

/-- Under a well-formed environment the fetch loop reads every listed file
at the Commit Cursor, in order, and cannot fail. -/
theorem fetch_contents_list_ok (names : List String) (w : World) (gsha ref : String)
    (hsha : w.env.github_sha = some gsha)
    (htok : w.env.github_token.isNone = false)
    (hrepo : w.env.github_repository.isNone = false)
    (href : w.env.syndicate_sha.getD gsha = ref) :
    fetch_contents_list w names
      = ({ w with calls := w.calls ++ names.map (fun n => .getFileContents n ref) },
         .ok (names.map (fun n => w.gh.contentsAt n ref))) := by
  induction names generalizing w with
  | nil => simp [fetch_contents_list]
  | cons n rest ih =>
    have hfc := file_contents_ok w n gsha hsha htok hrepo
    rw [href] at hfc
    have hmid := ih { w with calls := w.calls ++ [ApiCall.getFileContents n ref] }
      hsha htok hrepo href
    rw [fetch_contents_list, hfc]
    dsimp only
    rw [hmid]
    dsimp only
    simp [List.append_assoc]

/-- C8: get_posts lists the triggering commit, fails the assertion on an
empty payload, and otherwise fetches, at the Commit Cursor, the contents of
exactly the listed files whose name starts with the posts directory and
whose status is not deleted, in order; files with status deleted are never
fetched. The default posts directory, with SYNDICATE_POST_DIR unset, is the
literal posts. -/
theorem c8_get_posts_filter (w : World) (dir gsha : String)
    (hsha : w.env.github_sha = some gsha)
    (htok : w.env.github_token.isNone = false)
    (hrepo : w.env.github_repository.isNone = false) :
    (w.gh.commitFiles gsha = [] →
      get_posts dir w
        = ({ w with calls := w.calls ++ [.getCommit gsha] },
           .error (.assertionError "target commit was empty"))) ∧
    (w.gh.commitFiles gsha ≠ [] →
      (get_posts dir w).2
        = .ok ((((w.gh.commitFiles gsha).filter (fun f => pyStartswith f.filename dir)).filter
              (fun f => f.status != "deleted")).map
            (fun f => w.gh.contentsAt f.filename (w.env.syndicate_sha.getD gsha))) ∧
      (get_posts dir w).1.calls
        = (w.calls ++ [.getCommit gsha])
          ++ ((((w.gh.commitFiles gsha).filter (fun f => pyStartswith f.filename dir)).filter
              (fun f => f.status != "deleted")).map
            (fun f => .getFileContents f.filename (w.env.syndicate_sha.getD gsha)))) ∧
    (w.env.syndicate_post_dir = none → default_post_dir w.env = "posts") := by
  refine ⟨?_, ?_, ?_⟩
  · intro hnil
    rw [get_posts, get_trigger_payload_ok w gsha hsha htok hrepo, hnil]
    rfl
  · intro hne
    have hie : (w.gh.commitFiles gsha).isEmpty = false := by
      cases hfv : w.gh.commitFiles gsha with
      | nil => exact absurd hfv hne
      | cons a l => rfl
    have hfl := fetch_contents_list_ok
      ((((w.gh.commitFiles gsha).filter (fun f => pyStartswith f.filename dir)).filter
          (fun f => f.status != "deleted")).map (fun f => f.filename))
      { w with calls := w.calls ++ [ApiCall.getCommit gsha] } gsha
      (w.env.syndicate_sha.getD gsha) hsha htok hrepo rfl
    rw [get_posts, get_trigger_payload_ok w gsha hsha htok hrepo]
    dsimp only
    rw [hie, if_neg Bool.false_ne_true]
    rw [hfl]
    dsimp only
    constructor
    · simp [List.map_map, Function.comp]
    · simp [List.map_map, Function.comp, List.append_assoc]
  · intro hnone
    rw [default_post_dir, hnone]
    rfl

/-- A host whose trigger commit lists a modified post, a deleted post and a
file outside the posts directory. -/
def sampleGitHub2 : GitHub :=
  { sampleGitHub with
    commitFiles := fun _ =>
      [⟨"posts/a.md", "modified"⟩, ⟨"posts/b.md", "deleted"⟩, ⟨"README.md", "modified"⟩] }

/-- The initial state of a run against that host. -/
def sampleWorld3 : World :=
  { env := sampleEnv, gh := sampleGitHub2, calls := [], log := [] }

/-- C8 witness: the filter property evaluated on a concrete world whose
trigger lists a modified post, a deleted post and a file outside the posts
directory; only the first is fetched. -/
theorem c8_get_posts_filter_witness :
    sampleWorld3.env.github_sha = some "sha0" ∧
    sampleWorld3.env.github_token.isNone = false ∧
    sampleWorld3.env.github_repository.isNone = false ∧
    (sampleWorld3.gh.commitFiles "sha0" ≠ []) ∧
    (get_posts "posts" sampleWorld3).2
      = .ok [sampleWorld3.gh.contentsAt "posts/a.md" "sha0"] ∧
    (get_posts "posts" sampleWorld3).1.calls
      = [.getCommit "sha0", .getFileContents "posts/a.md" "sha0"] := by
  refine ⟨rfl, rfl, rfl, by decide, ?_, ?_⟩
  · have h := ((c8_get_posts_filter sampleWorld3 "posts" "sha0" rfl rfl rfl).2.1
      (by decide)).1
    rw [h]
    rfl
  · have h := ((c8_get_posts_filter sampleWorld3 "posts" "sha0" rfl rfl rfl).2.1
      (by decide)).2
    rw [h]
    rfl

end Syndicate

namespace Syndicate

theorem dev_fetch_find_cons (pid : Nat) (page : List DevArticle)
    (rest : List (List DevArticle)) :
    dev_fetch_find pid (page :: rest)
      = if page.isEmpty then none
        else
          match page.find? (fun a => a.id == pid) with
          | some a => some a
          | none => dev_fetch_find pid rest := rfl

/-- The paginated search is settled by the pages before the first empty one:
whatever the API would have served afterwards is never requested. -/
theorem dev_fetch_find_stops_at_empty (pid : Nat) (ps qs : List (List DevArticle))
    (hne : [] ∉ ps) :
    dev_fetch_find pid (ps ++ [] :: qs) = dev_fetch_find pid ps := by
  induction ps with
  | nil => rfl
  | cons page rest ih =>
    have hpage : page ≠ [] := fun h => hne (h ▸ List.mem_cons_self _ _)
    have hpe : page.isEmpty = false := by
      cases page with
      | nil => exact absurd rfl hpage
      | cons a l => rfl
    rw [List.cons_append, dev_fetch_find_cons, dev_fetch_find_cons, hpe,
      if_neg Bool.false_ne_true, if_neg Bool.false_ne_true]
    cases hf : page.find? (fun a => a.id == pid) with
    | some a => rfl
    | none => exact ih (fun h => hne (List.mem_cons_of_mem _ h))

/-- When no served page contains the id, the search comes back empty. -/
theorem dev_fetch_find_none (pid : Nat) (ps : List (List DevArticle))
    (h : ∀ page ∈ ps, ∀ a ∈ page, a.id ≠ pid) : dev_fetch_find pid ps = none := by
  induction ps with
  | nil => rfl
  | cons page rest ih =>
    rw [dev_fetch_find_cons]
    by_cases hpe : page.isEmpty
    · rw [if_pos hpe]
    · rw [if_neg hpe]
      have hf : page.find? (fun a => a.id == pid) = none := by
        rw [List.find?_eq_none]
        intro a ha
        simpa using h page (List.mem_cons_self _ _) a ha
      rw [hf]
      exact ih (fun pg hpg a ha => h pg (List.mem_cons_of_mem _ hpg) a ha)

theorem dev_fetch_some_eq (k : String) (i : Nat) (pages : List (List DevArticle)) :
    dev_fetch (some k) (some i) pages
      = .ok (match dev_fetch_find i pages with
             | some a => .found a
             | none => .notFound) := by
  cases hf : dev_fetch_find i pages <;> simp [dev_fetch, hf]

/-- C9: a silo fetch with an id paginates through the listing, stops at the
first page with zero results regardless of anything the API would serve
later, returns not found as a value rather than raising when the id never
appears, and in particular fetch of 13 against the pages containing only
the article 14 and then an empty page yields not found; a fetch without a
configured credential fails the credential assertion. -/
theorem c9_dev_fetch_pagination (k : String) (i : Nat) (ps qs : List (List DevArticle))
    (hne : [] ∉ ps) :
    dev_fetch (some k) (some i) (ps ++ [] :: qs) = dev_fetch (some k) (some i) ps ∧
    ((∀ page ∈ ps, ∀ a ∈ page, a.id ≠ i) →
      dev_fetch (some k) (some i) ps = .ok .notFound) ∧
    dev_fetch (some "fake_api_key") (some 13) [[⟨14⟩], []] = .ok .notFound ∧
    dev_fetch none (some 13) [[⟨14⟩], []] = .error (.assertionError "missing API key") := by
  refine ⟨?_, ?_, rfl, rfl⟩
  · rw [dev_fetch_some_eq, dev_fetch_some_eq, dev_fetch_find_stops_at_empty i ps qs hne]
  · intro hnone
    rw [dev_fetch_some_eq, dev_fetch_find_none i ps hnone]

/-- C9 witness: the pagination property evaluated on the scenario of the
claim, one page listing only article 14 followed by the empty page. -/
theorem c9_dev_fetch_pagination_witness :
    (([] : List DevArticle) ∉ [[(⟨14⟩ : DevArticle)]]) ∧
    (dev_fetch (some "fake_api_key") (some 13) ([[⟨14⟩]] ++ [] :: [[⟨99⟩]])
        = dev_fetch (some "fake_api_key") (some 13) [[⟨14⟩]] ∧
      ((∀ page ∈ [[(⟨14⟩ : DevArticle)]], ∀ a ∈ page, a.id ≠ 13) →
        dev_fetch (some "fake_api_key") (some 13) [[⟨14⟩]] = .ok .notFound) ∧
      dev_fetch (some "fake_api_key") (some 13) [[⟨14⟩], []] = .ok .notFound ∧
      dev_fetch none (some 13) [[⟨14⟩], []]
        = .error (.assertionError "missing API key")) :=
  ⟨by decide, c9_dev_fetch_pagination "fake_api_key" 13 [[⟨14⟩]] [[⟨99⟩]] (by decide)⟩

/-- C10: fronted is idempotent at its public interface: whenever it
succeeds, feeding its result back in returns the very same value, and a
missing or otherwise falsy post fails the assertion. -/
theorem c10_fronted_idempotent (loads : String → Post) (x : Option PostInput) (p : Post)
    (h : fronted loads x = .ok p) :
    fronted loads (some (.post p)) = fronted loads x ∧
    fronted loads none = .error (.assertionError "missing post") :=
  ⟨by rw [h]; rfl, rfl⟩

/-- C10 witness: idempotence evaluated on a concrete raw contents object
under a concrete parser. -/
theorem c10_fronted_idempotent_witness :
    fronted (fun s => ⟨[], s⟩) (some (.contents ⟨"body"⟩)) = .ok ⟨[], "body"⟩ ∧
    (fronted (fun s => (⟨[], s⟩ : Post)) (some (.post ⟨[], "body"⟩))
        = fronted (fun s => ⟨[], s⟩) (some (.contents ⟨"body"⟩)) ∧
      fronted (fun s => (⟨[], s⟩ : Post)) none
        = .error (.assertionError "missing post")) :=
  ⟨rfl, c10_fronted_idempotent (fun s => ⟨[], s⟩) (some (.contents ⟨"body"⟩)) ⟨[], "body"⟩ rfl⟩

end Syndicate
